import Mathlib

/-!
# Verification of the docx-rs ASCII/JSON rendering core

Shallow embedding of the rendering subsystem of `docx-rs`:
the `Render` capability (`src/docx-core/src/documents/render.rs`),
the generic child aggregator `render_children`, and the table-row
grid reconciler `TableRow::render_ascii_json`
(`src/docx-core/src/documents/elements/table_row.rs`).

Rust `String` is modelled as Lean `String`; `Vec<T>` as `List T`;
`serde_json::Value` as the inductive `JsonValue`.
-/

namespace DocxRender

/-- `serde_json::Value`: an opaque JSON payload.  The renderer carries it
verbatim and never interprets it; numbers are modelled as `Int` since no
claim inspects a numeric payload. -/
inductive JsonValue where
  | null
  | bool (b : Bool)
  | num (n : Int)
  | str (s : String)
  | arr (xs : List JsonValue)
  | obj (fields : List (String × JsonValue))

/-- The `JsonRender` struct from `render.rs`: a rendering node with a type
tag, accumulated ascii text, child rendering nodes and an opaque
properties payload. -/
structure JsonRender where
  type : String
  ascii : String
  children : List JsonRender
  properties : JsonValue

/-- The `json_render!` macro from `render.rs`: it expands to a `JsonRender`
literal; the one- and two-argument forms fill `children` with `vec![]` and
`properties` with `serde_json::Value::Null`. -/
def json_render (type ascii : String) (children : List JsonRender)
    (properties : JsonValue) : JsonRender :=
  { type := type, ascii := ascii, children := children, properties := properties }

/-- The `Render` trait: one required operation, `render_ascii_json`,
producing a rendering node. -/
class Render (T : Type) where
  render_ascii_json : T → JsonRender

export Render (render_ascii_json)

/-- The trait's default method `render_ascii`: the text projection of
`render_ascii_json`.  No implementation in the sources overrides it. -/
def render_ascii {T : Type} [Render T] (x : T) : String :=
  (render_ascii_json x).ascii

/-- `render_children` from `render.rs`: the generic child aggregator.
Renders every child, joins their ascii texts with `children_join`, and
copies `type` and `properties` from the arguments. -/
def render_children {T : Type} [Render T] (children : List T)
    (children_join : String) (type : String) (properties : JsonValue) :
    JsonRender :=
  let children_json := children.map render_ascii_json
  let ascii := String.intercalate children_join (children_json.map (·.ascii))
  { type := type, children := children_json, ascii := ascii,
    properties := properties }

/-- Modelled from the spec: `TableCellContent` (the paragraphs or nested
tables inside a cell) is outside these sources; per the spec the core
"consumes only element values that already know how to render themselves",
so cell content is modelled as an element carrying its own rendering
node. -/
structure TableCellContent where
  rendering : JsonRender

instance : Render TableCellContent where
  render_ascii_json c := c.rendering

/-- Modelled from the spec: `TableCell` is defined outside these sources;
the code here references only its `children` (cell content, rendered by the
row-child wrapper) and `has_numbering` (read by `TableRow::new`). -/
structure TableCell where
  children : List TableCellContent
  has_numbering : Bool

/-- Modelled from the spec: `HeightRule` is an external enum of row-height
rules, carried opaquely by the row property. -/
inductive HeightRule where
  | auto
  | atLeast
  | exact

/-- Modelled from the spec: `Delete` is an external tracked-change element;
the row code only stores it in the property, so it is an opaque carrier. -/
structure Delete where
  payload : Nat

/-- Modelled from the spec: `Insert` is an external tracked-change element;
the row code only stores it in the property, so it is an opaque carrier. -/
structure Insert where
  payload : Nat

/-- Modelled from the spec: `TableRowProperty` is an external property
struct whose builder methods (`grid_after`, `width_after`, ...) are called
by `TableRow`'s builder methods; modelled as a record with one field per
setter.  `f32` payloads are carried verbatim and never computed with, so
they are modelled as `Int` carriers. -/
structure TableRowProperty where
  grid_after : Option Nat
  width_after : Option Int
  grid_before : Option Nat
  width_before : Option Int
  row_height : Option Int
  height_rule : Option HeightRule
  del : Option Delete
  ins : Option Insert
  cant_split : Bool

/-- Modelled from the spec: `TableRowProperty::new` yields the default
(all-unset) property. -/
def TableRowProperty.new : TableRowProperty :=
  ⟨none, none, none, none, none, none, none, none, false⟩

def TableRowProperty.grid_after_set (p : TableRowProperty) (g : Nat) :
    TableRowProperty := { p with grid_after := some g }

def TableRowProperty.width_after_set (p : TableRowProperty) (w : Int) :
    TableRowProperty := { p with width_after := some w }

def TableRowProperty.grid_before_set (p : TableRowProperty) (g : Nat) :
    TableRowProperty := { p with grid_before := some g }

def TableRowProperty.width_before_set (p : TableRowProperty) (w : Int) :
    TableRowProperty := { p with width_before := some w }

def TableRowProperty.row_height_set (p : TableRowProperty) (h : Int) :
    TableRowProperty := { p with row_height := some h }

def TableRowProperty.height_rule_set (p : TableRowProperty) (r : HeightRule) :
    TableRowProperty := { p with height_rule := some r }

def TableRowProperty.delete (p : TableRowProperty) (d : Delete) :
    TableRowProperty := { p with del := some d }

def TableRowProperty.insert (p : TableRowProperty) (i : Insert) :
    TableRowProperty := { p with ins := some i }

def TableRowProperty.cant_split_set (p : TableRowProperty) :
    TableRowProperty := { p with cant_split := true }

/-- Rust `str::split("\n")` on a character list: newline-delimited
segments, empty segments kept; the empty string yields one empty
segment. -/
def splitLinesChars : List Char → List (List Char)
  | [] => [[]]
  | c :: cs =>
      let rest := splitLinesChars cs
      if c = '\n' then [] :: rest
      else
        match rest with
        | [] => [[c]]
        | l :: ls => (c :: l) :: ls

/-- Rust `str::split("\n")` (as used by `TableRow::render_ascii_json` with
`.map(String::from).collect()`): the newline-delimited lines of a string,
empty segments kept. -/
def splitLines (s : String) : List String :=
  (splitLinesChars s.data).map String.mk

/-- `TableRowChild` from `table_row.rs`: the closed tagged union of kinds a
row's direct child may be — currently exactly table cells. -/
inductive TableRowChild where
  | tableCell (cell : TableCell)

/-- `TableRowChild`'s `Render` impl from `table_row.rs`: a cell renders via
the generic aggregator over its content, newline-joined, type
`"TableCell"`, null properties. -/
instance : Render TableRowChild where
  render_ascii_json c :=
    match c with
    | .tableCell cell =>
        render_children cell.children "\n" "TableCell" JsonValue.null

/-- `TableRow` from `table_row.rs`. -/
structure TableRow where
  cells : List TableRowChild
  has_numbering : Bool
  property : TableRowProperty

/-- `TableRow::render_ascii_json` from `table_row.rs`: the table-row grid
reconciler.  Splits each cell's ascii on `"\n"`, takes the maximum line
count (`None`, i.e. no cells, yields the `"| |"` placeholder), then builds
each grid line from the cells' `i`-th lines (empty string when missing),
joined with `" | "` and wrapped in `"| "` / `" |"`, and newline-joins the
grid lines. -/
def TableRow.render_ascii_json (r : TableRow) : JsonRender :=
  let child_ascii : List (List String) :=
    r.cells.map (fun c => splitLines (render_ascii c))
  match (child_ascii.map List.length).max? with
  | none => json_render "TableRow" "| |" [] JsonValue.null
  | some max_rows =>
      let ascii_rows : List String :=
        (List.range max_rows).map (fun i =>
          let ascii_row := child_ascii.map (fun c => c.getD i "")
          "| " ++ String.intercalate " | " ascii_row ++ " |")
      json_render "TableRow" (String.intercalate "\n" ascii_rows) []
        JsonValue.null

instance : Render TableRow where
  render_ascii_json := TableRow.render_ascii_json

/-- `TableRow::new` from `table_row.rs`. -/
def TableRow.new (cells : List TableCell) : TableRow :=
  { cells := cells.map TableRowChild.tableCell
    has_numbering := cells.any (·.has_numbering)
    property := TableRowProperty.new }

/-- `TableRow::grid_after` from `table_row.rs`. -/
def TableRow.grid_after (r : TableRow) (g : Nat) : TableRow :=
  { r with property := r.property.grid_after_set g }

/-- `TableRow::width_after` from `table_row.rs`. -/
def TableRow.width_after (r : TableRow) (w : Int) : TableRow :=
  { r with property := r.property.width_after_set w }

/-- `TableRow::grid_before` from `table_row.rs`. -/
def TableRow.grid_before (r : TableRow) (g : Nat) : TableRow :=
  { r with property := r.property.grid_before_set g }

/-- `TableRow::width_before` from `table_row.rs`. -/
def TableRow.width_before (r : TableRow) (w : Int) : TableRow :=
  { r with property := r.property.width_before_set w }

/-- `TableRow::row_height` from `table_row.rs`. -/
def TableRow.row_height (r : TableRow) (h : Int) : TableRow :=
  { r with property := r.property.row_height_set h }

/-- `TableRow::height_rule` from `table_row.rs`. -/
def TableRow.height_rule (r : TableRow) (hr : HeightRule) : TableRow :=
  { r with property := r.property.height_rule_set hr }

/-- `TableRow::delete` from `table_row.rs`. -/
def TableRow.delete (r : TableRow) (d : Delete) : TableRow :=
  { r with property := r.property.delete d }

/-- `TableRow::insert` from `table_row.rs`. -/
def TableRow.insert (r : TableRow) (i : Insert) : TableRow :=
  { r with property := r.property.insert i }

/-- `TableRow::cant_split` from `table_row.rs`. -/
def TableRow.cant_split (r : TableRow) : TableRow :=
  { r with property := r.property.cant_split_set }

/-- Modelled from the spec: tables "aggregate rows using newline-joined
grid texts" via the generic aggregator (spec 4.4); the `Table` element
itself is outside these sources. -/
def Table.render_rows (rows : List TableRow) : JsonRender :=
  render_children rows "\n" "Table" JsonValue.null

/-- A cell whose rendered text is exactly `t`: one content child carrying
`t` (the newline-join of a single text is the text itself). -/
def cellWithText (t : String) : TableRowChild :=
  .tableCell ⟨[⟨json_render "Text" t [] JsonValue.null⟩], false⟩

/-- A cell with empty content: it renders the empty string. -/
def emptyCell : TableRowChild := .tableCell ⟨[], false⟩

/-! ## Helper lemmas about `String.intercalate` -/

lemma intercalate_go_append (s x y : String) (l : List String) :
    String.intercalate.go (x ++ y) s l = x ++ String.intercalate.go y s l := by
  induction l generalizing y with
  | nil => rfl
  | cons c cs ih =>
      show String.intercalate.go (x ++ y ++ s ++ c) s cs
          = x ++ String.intercalate.go (y ++ s ++ c) s cs
      have hx : x ++ y ++ s ++ c = x ++ (y ++ s ++ c) := by
        rw [String.append_assoc, String.append_assoc, String.append_assoc]
      rw [hx, ih]

lemma intercalate_cons (s a : String) (l : List String) (h : l ≠ []) :
    String.intercalate s (a :: l) = a ++ s ++ String.intercalate s l := by
  match l, h with
  | b :: bs, _ =>
      show String.intercalate.go a s (b :: bs) = a ++ s ++ String.intercalate.go b s bs
      show String.intercalate.go (a ++ s ++ b) s bs = _
      exact intercalate_go_append s (a ++ s) b bs

/-! ## Claim theorems -/

/-- Claim C1: for a table row with at least one cell, splitting each cell's
rendered text into lines `L1..Lk`, the row's rendered text is the
newline-join of exactly `max(|L1|,...,|Lk|)` grid lines, and grid line `i`
is the `k` per-column strings (the cell's `i`-th line if it exists, else
the empty string) joined with `" | "`, wrapped by `"| "` and `" |"`. -/
theorem tableRow_grid_reconciliation (r : TableRow) (h : r.cells ≠ []) :
    ∃ m gs,
      ((r.cells.map (fun c => splitLines (render_ascii c))).map List.length).max? = some m ∧
      (render_ascii_json r).ascii = String.intercalate "\n" gs ∧
      gs.length = m ∧
      ∀ i, i < m → gs.getD i "" =
        "| " ++ String.intercalate " | "
          ((r.cells.map (fun c => splitLines (render_ascii c))).map (fun L => L.getD i "")) ++ " |" := by
  cases hm : ((r.cells.map (fun c => splitLines (render_ascii c))).map List.length).max? with
  | none =>
      exfalso
      apply h
      have h2 := List.max?_eq_none_iff.mp hm
      simpa using h2
  | some m =>
      refine ⟨m, (List.range m).map (fun i =>
        "| " ++ String.intercalate " | "
          ((r.cells.map (fun c => splitLines (render_ascii c))).map (fun L => L.getD i "")) ++ " |"),
        rfl, ?_, ?_, ?_⟩
      · show (TableRow.render_ascii_json r).ascii = _
        simp only [TableRow.render_ascii_json, json_render, hm]
      · simp
      · intro i hi
        simp [List.getD_eq_getElem?_getD, List.getElem?_map, List.getElem?_range hi]

/-- Witness for C1 at the spec's bit-exact example: a row whose two cells
render `"a\nb"` and `"c"` renders as `"| a | c |\n| b |  |"`, and the grid
characterization holds there. -/
theorem tableRow_grid_reconciliation_witness :
    (TableRow.mk [cellWithText "a\nb", cellWithText "c"] false TableRowProperty.new).cells ≠ [] ∧
    (render_ascii_json
      (TableRow.mk [cellWithText "a\nb", cellWithText "c"] false TableRowProperty.new)).ascii
      = "| a | c |\n| b |  |" ∧
    (∃ m gs,
      (((TableRow.mk [cellWithText "a\nb", cellWithText "c"] false
          TableRowProperty.new).cells.map
            (fun c => splitLines (render_ascii c))).map List.length).max? = some m ∧
      (render_ascii_json
        (TableRow.mk [cellWithText "a\nb", cellWithText "c"] false
          TableRowProperty.new)).ascii = String.intercalate "\n" gs ∧
      gs.length = m ∧
      ∀ i, i < m → gs.getD i "" =
        "| " ++ String.intercalate " | "
          (((TableRow.mk [cellWithText "a\nb", cellWithText "c"] false
              TableRowProperty.new).cells.map
                (fun c => splitLines (render_ascii c))).map (fun L => L.getD i "")) ++ " |") :=
  ⟨List.cons_ne_nil _ _, by decide,
    tableRow_grid_reconciliation
      (TableRow.mk [cellWithText "a\nb", cellWithText "c"] false TableRowProperty.new)
      (List.cons_ne_nil _ _)⟩

/-- Counterexample to claim C2: the rendering node of a one-cell row has an
empty `children` list, not one entry per cell. -/
theorem tableRow_children_drop_cells_cex :
    ¬ ((render_ascii_json
        (TableRow.mk [cellWithText "x"] false TableRowProperty.new)).children.length
      = (TableRow.mk [cellWithText "x"] false TableRowProperty.new).cells.length) := by
  decide

/-- Claim C2 as amended: the `children` list of the rendering node returned
by `TableRow::render_ascii_json` is always empty, whatever the cells are —
the cells' own rendering nodes are not attached as children. -/
theorem tableRow_children_empty (r : TableRow) :
    (render_ascii_json r).children = [] := by
  show (TableRow.render_ascii_json r).children = []
  simp only [TableRow.render_ascii_json]
  split <;> rfl

/-- Claim C3: the text of the node returned by `render_children` over
children with texts `t1..tn` and separator `s` is
`t1 + s + t2 + s + ... + tn`: the empty sequence yields the empty string,
a singleton yields `t1` unseparated, and each further child contributes one
separator. -/
theorem render_children_ascii_join {T : Type} [Render T] (s ty : String) (p : JsonValue) :
    (render_children ([] : List T) s ty p).ascii = "" ∧
    (∀ c : T, (render_children [c] s ty p).ascii = render_ascii c) ∧
    (∀ (c : T) (cs : List T), cs ≠ [] →
      (render_children (c :: cs) s ty p).ascii
        = render_ascii c ++ s ++ (render_children cs s ty p).ascii) := by
  refine ⟨rfl, fun c => rfl, fun c cs hcs => ?_⟩
  show String.intercalate s (((c :: cs).map render_ascii_json).map (·.ascii)) = _
  rw [List.map_cons, List.map_cons, intercalate_cons]
  · rfl
  · simp [hcs]

/-- Witness for C3 at concrete children: the empty, singleton and two-element
cases of the join law at separator `", "`. -/
theorem render_children_ascii_join_witness :
    (render_children ([] : List TableRowChild) ", " "Paragraph" JsonValue.null).ascii = "" ∧
    (render_children [cellWithText "a"] ", " "Paragraph" JsonValue.null).ascii
      = render_ascii (cellWithText "a") ∧
    (render_children [cellWithText "a", cellWithText "b"] ", " "Paragraph"
        JsonValue.null).ascii
      = render_ascii (cellWithText "a") ++ ", "
          ++ (render_children [cellWithText "b"] ", " "Paragraph" JsonValue.null).ascii :=
  ⟨(render_children_ascii_join (T := TableRowChild) ", " "Paragraph" JsonValue.null).1,
   (render_children_ascii_join (T := TableRowChild) ", " "Paragraph"
      JsonValue.null).2.1 (cellWithText "a"),
   (render_children_ascii_join (T := TableRowChild) ", " "Paragraph"
      JsonValue.null).2.2 (cellWithText "a") [cellWithText "b"] (List.cons_ne_nil _ _)⟩

/-- Claim C4: for every element implementing the `Render` capability,
`render_ascii` equals the `ascii` field of `render_ascii_json` on the same
element — the text projection is defined purely from the full rendering. -/
theorem render_ascii_is_projection {T : Type} [Render T] (x : T) :
    render_ascii x = (render_ascii_json x).ascii := rfl

/-- Counterexample to claim C5: a row with a single empty-content cell does
not render as the three-character string `"| |"`. -/
theorem singleEmptyCellRow_cex :
    ¬ ((render_ascii_json
        (TableRow.mk [emptyCell] false TableRowProperty.new)).ascii = "| |") := by
  decide

/-- Claim C5 as amended: a row with a single empty-content cell renders as
the four-character string `"|  |"` (the empty field still occupies its
padded slot), and under a table it appears as a single-line child of the
table's joined text. -/
theorem singleEmptyCellRow_grid (b hn : Bool) (p : TableRowProperty) :
    (render_ascii_json (TableRow.mk [.tableCell ⟨[], b⟩] hn p)).ascii = "|  |" ∧
    (Table.render_rows [TableRow.mk [.tableCell ⟨[], b⟩] hn p]).ascii = "|  |" ∧
    (Table.render_rows [TableRow.mk [.tableCell ⟨[], b⟩] hn p]).children
      = [render_ascii_json (TableRow.mk [.tableCell ⟨[], b⟩] hn p)] ∧
    splitLines (Table.render_rows [TableRow.mk [.tableCell ⟨[], b⟩] hn p]).ascii
      = [(render_ascii_json (TableRow.mk [.tableCell ⟨[], b⟩] hn p)).ascii] :=
  ⟨rfl, rfl, rfl, rfl⟩

/-- Counterexample to claim C6: the generic aggregator over an empty child
sequence produces the empty string as its text, not a non-empty
placeholder. -/
theorem emptyComposite_ascii_empty_cex :
    (render_children ([] : List TableCellContent) "\n" "TableCell"
      JsonValue.null).ascii = "" := rfl

/-- Claim C6 as amended: degenerate inputs render to a defined node without
failure — a table row with no cells yields the non-empty placeholder
`"| |"`, while a generic composite with no children yields the empty
string as its text (not a non-empty placeholder). -/
theorem degenerate_children_defined {T : Type} [Render T] (r : TableRow)
    (h : r.cells = []) (s ty : String) (p : JsonValue) :
    (render_ascii_json r).ascii = "| |" ∧
    (render_ascii_json r).ascii ≠ "" ∧
    (render_children ([] : List T) s ty p).ascii = "" := by
  have h1 : render_ascii_json r = json_render "TableRow" "| |" [] JsonValue.null := by
    show TableRow.render_ascii_json r = _
    simp only [TableRow.render_ascii_json, h, List.map_nil, List.max?_nil]
  refine ⟨by rw [h1]; rfl, ?_, rfl⟩
  rw [h1]
  decide

/-- Witness for C6 at a concrete empty row and empty child list. -/
theorem degenerate_children_defined_witness :
    (TableRow.mk [] false TableRowProperty.new).cells = [] ∧
    ((render_ascii_json (TableRow.mk [] false TableRowProperty.new)).ascii = "| |" ∧
     (render_ascii_json (TableRow.mk [] false TableRowProperty.new)).ascii ≠ "" ∧
     (render_children ([] : List TableRowChild) "\n" "Document"
       JsonValue.null).ascii = "") :=
  ⟨rfl, degenerate_children_defined (T := TableRowChild)
    (TableRow.mk [] false TableRowProperty.new) rfl "\n" "Document" JsonValue.null⟩

/-- Claim C7: a row with no cells renders to the node
`json_render "TableRow" "| |"` — its text is exactly `"| |"`, a single
line — and the (total) function does not fail. -/
theorem emptyRow_placeholder (r : TableRow) (h : r.cells = []) :
    render_ascii_json r = json_render "TableRow" "| |" [] JsonValue.null ∧
    splitLines (render_ascii_json r).ascii = ["| |"] := by
  have h1 : render_ascii_json r = json_render "TableRow" "| |" [] JsonValue.null := by
    show TableRow.render_ascii_json r = _
    simp only [TableRow.render_ascii_json, h, List.map_nil, List.max?_nil]
  refine ⟨h1, ?_⟩
  rw [h1]
  rfl

/-- Witness for C7 at the concrete empty row. -/
theorem emptyRow_placeholder_witness :
    (TableRow.mk [] false TableRowProperty.new).cells = [] ∧
    (render_ascii_json (TableRow.mk [] false TableRowProperty.new)
        = json_render "TableRow" "| |" [] JsonValue.null ∧
     splitLines (render_ascii_json (TableRow.mk [] false TableRowProperty.new)).ascii
        = ["| |"]) :=
  ⟨rfl, emptyRow_placeholder (TableRow.mk [] false TableRowProperty.new) rfl⟩

/-- Claim C8: `render_children` returns a node whose `children` is exactly
the input-order map of each child's rendering (no reordering, no
deduplication), and whose `type` and `properties` are the caller's
arguments verbatim. -/
theorem render_children_structure {T : Type} [Render T] (children : List T)
    (s ty : String) (p : JsonValue) :
    (render_children children s ty p).children = children.map render_ascii_json ∧
    (render_children children s ty p).type = ty ∧
    (render_children children s ty p).properties = p :=
  ⟨rfl, rfl, rfl⟩

/-- Claim C9: row rendering depends only on the cells — two rows with equal
cells but arbitrary `has_numbering` and `property` fields render to
identical nodes, the node's `type` is always `"TableRow"`, and its
`properties` is always JSON null. -/
theorem rowRender_independent_of_properties (cells : List TableRowChild)
    (b₁ b₂ : Bool) (p₁ p₂ : TableRowProperty) :
    render_ascii_json (TableRow.mk cells b₁ p₁)
      = render_ascii_json (TableRow.mk cells b₂ p₂) ∧
    (render_ascii_json (TableRow.mk cells b₁ p₁)).type = "TableRow" ∧
    (render_ascii_json (TableRow.mk cells b₁ p₁)).properties = JsonValue.null := by
  refine ⟨rfl, ?_, ?_⟩
  · show (TableRow.render_ascii_json _).type = _
    simp only [TableRow.render_ascii_json]
    split <;> rfl
  · show (TableRow.render_ascii_json _).properties = _
    simp only [TableRow.render_ascii_json]
    split <;> rfl

/-- Claim C10: every `TableRow` builder method among `grid_after`,
`width_after`, `grid_before`, `width_before`, `row_height`, `height_rule`,
`delete`, `insert` and `cant_split` leaves `cells` and `has_numbering`
unchanged and only updates `property`. -/
theorem builder_methods_frame (r : TableRow) (g gb : Nat) (w wb ht : Int)
    (hr : HeightRule) (d : Delete) (ins : Insert) :
    ((r.grid_after g).cells = r.cells ∧ (r.grid_after g).has_numbering = r.has_numbering ∧
      (r.grid_after g).property = r.property.grid_after_set g) ∧
    ((r.width_after w).cells = r.cells ∧ (r.width_after w).has_numbering = r.has_numbering ∧
      (r.width_after w).property = r.property.width_after_set w) ∧
    ((r.grid_before gb).cells = r.cells ∧ (r.grid_before gb).has_numbering = r.has_numbering ∧
      (r.grid_before gb).property = r.property.grid_before_set gb) ∧
    ((r.width_before wb).cells = r.cells ∧ (r.width_before wb).has_numbering = r.has_numbering ∧
      (r.width_before wb).property = r.property.width_before_set wb) ∧
    ((r.row_height ht).cells = r.cells ∧ (r.row_height ht).has_numbering = r.has_numbering ∧
      (r.row_height ht).property = r.property.row_height_set ht) ∧
    ((r.height_rule hr).cells = r.cells ∧ (r.height_rule hr).has_numbering = r.has_numbering ∧
      (r.height_rule hr).property = r.property.height_rule_set hr) ∧
    ((r.delete d).cells = r.cells ∧ (r.delete d).has_numbering = r.has_numbering ∧
      (r.delete d).property = r.property.delete d) ∧
    ((r.insert ins).cells = r.cells ∧ (r.insert ins).has_numbering = r.has_numbering ∧
      (r.insert ins).property = r.property.insert ins) ∧
    (r.cant_split.cells = r.cells ∧ r.cant_split.has_numbering = r.has_numbering ∧
      r.cant_split.property = r.property.cant_split_set) :=
  ⟨⟨rfl, rfl, rfl⟩, ⟨rfl, rfl, rfl⟩, ⟨rfl, rfl, rfl⟩, ⟨rfl, rfl, rfl⟩, ⟨rfl, rfl, rfl⟩,
   ⟨rfl, rfl, rfl⟩, ⟨rfl, rfl, rfl⟩, ⟨rfl, rfl, rfl⟩, ⟨rfl, rfl, rfl⟩⟩

end DocxRender
